import Mathlib

/-!
Shallow embedding of the goose GUI-automation core (Rust), covering:
  * `src/nav/coordinate.rs` — `Coordinate`, `ScreenCoordinates`, `ScreenRect`
  * `src/nav/location.rs`   — the older revision of `ScreenCoordinates` and
    `ImageTemplate::get_location` (namespace `Location`)
  * `src/nav/strategy.rs`   — `TemplateMatchingStrategy`, `EdgeParsingStrategy`
  * `src/verb/action.rs`    — `CheckUIState::changed_ui_state`, `GuiVerb::fire`
  * `src/verb/click.rs`, `src/verb/input.rs` — default check-zone derivation

Modelling conventions:
  * Rust `f64` values are modelled as `ℚ`; the program only divides by the
    device scale factor and compares, so no floating-point rounding is
    load-bearing for the verified properties.
  * Machine-integer casts are explicit: `f64 as i32`/`f64 as u64` are Rust
    saturating casts (modelled by truncation toward zero and clamping at 0),
    `u64 as i32` wraps (modelled with an explicit `% 2^32`).
  * The process-wide screen size and device scale factor
    (`autopilot::screen::size()` / `screen::scale()`, established once at
    startup) are passed explicitly as a `Screen` value.
  * Error values carry diagnostic `format!` strings in the source; the
    messages are not load-bearing and are elided — errors are modelled as a
    closed inductive.
  * OpenCV / autopilot primitives (screen capture, `match_template` +
    `min_max_loc`, `imread`, `resize`) are external collaborators: their
    observable outputs (frame dimensions, decoded template dimensions, best
    match location) are injected as arguments.
-/

/-- Process-wide display configuration: screen size in scaled units
(`screen::size()`) and device scale factor (`screen::scale()`). -/
structure Screen where
  width : ℤ
  height : ℤ
  scale : ℚ

/-- Truncation toward zero, the rounding used by Rust `as` casts from floats. -/
def truncQ (q : ℚ) : ℤ :=
  if 0 ≤ q then ⌊q⌋ else ⌈q⌉

/-- Rust saturating cast `f64 as u64`: truncates toward zero, negative values
clamp to 0. The saturation at `2^64` is irrelevant to screen geometry and not
modelled. -/
def u64cast (q : ℚ) : ℤ :=
  max 0 (truncQ q)

/-- Rust wrapping cast `u64 as i32`. -/
def i32cast (n : ℕ) : ℤ :=
  ((n : ℤ) + 2 ^ 31) % 2 ^ 32 - 2 ^ 31

/-- Rust saturating cast `f64 as i32`. -/
def satI32 (q : ℚ) : ℤ :=
  max (-(2 ^ 31)) (min (2 ^ 31 - 1) (truncQ q))

/-- Closed error taxonomy of the embedded code: `ScreenCoordinateError` and
`OutOfBoundsError` from `src/errors.rs`, `UIActionTimeOutError` is modelled
separately in `FireResult`, and `roiError` stands for the `opencv` error
returned by `Mat::roi` when the requested region leaves the image. -/
inductive NavError where
  | screenCoordinateError
  | outOfBoundsError
  | roiError
deriving DecidableEq

/-- Scalar screen-axis value (`Coordinate` in `src/nav/coordinate.rs`). -/
structure Coordinate where
  val : ℚ
deriving DecidableEq

/-- `Coordinate::new` (coordinate.rs:16-27): positive raw inputs are divided by
the device scale factor, inputs `≤ 0` clamp to the origin. -/
def Coordinate.new (scr : Screen) (v : ℚ) : Coordinate :=
  if 0 < v then { val := v / scr.scale } else { val := 0 }

/-- Target location for cursor navigation (`ScreenCoordinates` in
`src/nav/coordinate.rs`); the payload is `autopilot::geometry::Point`. -/
structure ScreenCoordinates where
  point : ℚ × ℚ
deriving DecidableEq

/-- `ScreenCoordinates::new` (coordinate.rs:60-84): converts both inputs
through `Coordinate::new` and rejects coordinates strictly beyond the screen
extent. -/
def ScreenCoordinates.new (scr : Screen) (x y : ℚ) : Except NavError ScreenCoordinates :=
  let cx := Coordinate.new scr x
  let cy := Coordinate.new scr y
  if (scr.width : ℚ) < cx.val ∨ (scr.height : ℚ) < cy.val then
    .error .screenCoordinateError
  else
    .ok { point := (cx.val, cy.val) }

/-- `ScreenCoordinates::shift` (coordinate.rs:87-99): adds the offsets to the
stored (already scaled) point and rebuilds through `ScreenCoordinates::new`
(the `map_err` only rewrites the message). -/
def ScreenCoordinates.shift (scr : Screen) (p : ScreenCoordinates) (x y : ℚ) :
    Except NavError ScreenCoordinates :=
  ScreenCoordinates.new scr (p.point.1 + x) (p.point.2 + y)

/-- Anchor modes for `generate_rect` (`PointAsRectAnchor`, coordinate.rs:51-57). -/
inductive PointAsRectAnchor where
  | TopLeft
  | TopRight
  | BottomLeft
  | BottomRight
  | Center

/-- Screen-bound rectangle (`ScreenRect`, coordinate.rs:181-184); the payload
is `autopilot::geometry::Rect` (origin point plus size, all `f64`). -/
structure ScreenRect where
  origin : ℚ × ℚ
  size : ℚ × ℚ
deriving DecidableEq

/-- `ScreenRect::new` (coordinate.rs:186-209): origin goes through
`Coordinate::new`; width and height are truncated with
`min(requested as u64, screen_extent as u64 - origin as u64)`. The `u64`
subtraction is modelled as unbounded integer subtraction, which is exact
only while the scaled origin does not exceed the screen extent; beyond
that, the Rust subtraction underflows — a panic in debug builds,
a wrap-around to a huge value (letting the requested size through
untruncated) in release builds — and this model instead goes negative.
Every theorem below that touches this subtraction confines itself to the
exact region. -/
def ScreenRect.new (scr : Screen) (x y : ℚ) (width height : ℚ) : ScreenRect :=
  let cx := Coordinate.new scr x
  let cy := Coordinate.new scr y
  let w : ℤ := min (u64cast width) (scr.width - u64cast cx.val)
  let h : ℤ := min (u64cast height) (scr.height - u64cast cy.val)
  { origin := (cx.val, cy.val), size := ((w : ℚ), (h : ℚ)) }

/-- `ScreenRect::default` (coordinate.rs:211-215): the full screen. -/
def ScreenRect.default (scr : Screen) : ScreenRect :=
  ScreenRect.new scr 0 0 (scr.width : ℚ) (scr.height : ℚ)

/-- `ScreenCoordinates::generate_rect` (coordinate.rs:107-147): anchors a
requested `width × height` box at the point, truncating each side to the
distance from the anchor to the relevant screen edge, then builds a
`ScreenRect`. The point and the sizes are cast to `i32` first (the size
cast `u64 as i32` wraps, turning requests of `2^31` and above negative);
`rw / 2` is Rust `i32` division (truncation toward zero). The intermediate
subtractions `x - rw` / `y - rh` are modelled in unbounded ℤ: for requested
sizes below `2^31` (where every theorem about well-formed output lives)
they cannot leave `i32`, and for the TopLeft anchor no such subtraction
occurs at all, so the wrap counterexample below is exact; for the other
anchors at sizes `2^31` and above, the Rust subtraction itself overflows
`i32` — a panic in debug builds, a wrap in release builds — which this
total model does not reproduce. -/
def ScreenCoordinates.generate_rect (scr : Screen) (p : ScreenCoordinates)
    (width height : ℕ) (anchor : PointAsRectAnchor) : ScreenRect :=
  let x : ℤ := satI32 p.point.1
  let y : ℤ := satI32 p.point.2
  let w : ℤ := i32cast width
  let h : ℤ := i32cast height
  let maxW : ℤ := scr.width
  let maxH : ℤ := scr.height
  let r : ℤ × ℤ × ℤ × ℤ :=
    match anchor with
    | .TopLeft => (x, y, min w (maxW - x), min h (maxH - y))
    | .TopRight =>
        let rw := min w x
        let rh := min h (maxH - y)
        (x - rw, y, rw, rh)
    | .BottomLeft =>
        let rw := min w (maxW - x)
        let rh := min h y
        (x, y - rh, rw, rh)
    | .BottomRight =>
        let rw := min w x
        let rh := min h y
        (x - rw, y - rh, rw, rh)
    | .Center =>
        let rw := min w (min x (maxW - x))
        let rh := min h (min y (maxH - y))
        (x - Int.tdiv rw 2, y - Int.tdiv rh 2, rw, rh)
  ScreenRect.new scr (r.1 : ℚ) (r.2.1 : ℚ) (r.2.2.1 : ℚ) (r.2.2.2 : ℚ)

/-- Distance from an anchor coordinate to the relevant screen edge along the
x-axis, as the specification describes the truncation rule of `generate_rect`
(spec section 4.1: min of the requested size and the distance to the relevant
edge; symmetric min of both distances for the Center anchor). -/
def specAnchorDistX (scr : Screen) (x : ℤ) : PointAsRectAnchor → ℤ
  | .TopLeft => scr.width - x
  | .BottomLeft => scr.width - x
  | .TopRight => x
  | .BottomRight => x
  | .Center => min x (scr.width - x)

/-- Distance from an anchor coordinate to the relevant screen edge along the
y-axis (spec section 4.1). -/
def specAnchorDistY (scr : Screen) (y : ℤ) : PointAsRectAnchor → ℤ
  | .TopLeft => scr.height - y
  | .TopRight => scr.height - y
  | .BottomLeft => y
  | .BottomRight => y
  | .Center => min y (scr.height - y)

/-- Dimensions of an `opencv::core::Mat` as reported by `Mat::size()`
(`width` is the column count, `height` the row count). Used where only the
dimensions of a frame or template are load-bearing. -/
structure MatDims where
  cols : ℤ
  rows : ℤ

/-- `TemplateMatchingStrategy::get_location` (strategy.rs:41-118).
External collaborators are injected: `shot` is the dimensions of the captured
screen (`capture_screen` converted to a Mat), and `matchLoc` is the best-match
location reported by `match_template` + `min_max_loc` (relative to the
search-region ROI). `imread` and `resize` only feed the match primitive and
so are absorbed into `matchLoc`. The `From<ScreenRect> for core::Rect`
conversion (coordinate.rs:234-243) casts each `f64` field with `as i32`;
`Mat::roi` fails when the region leaves the screenshot. The final point is
built by `ScreenCoordinates::new` directly from the ROI-relative match
location: no search-region offset and no half-template centroid offset is
applied, and `Coordinate::new` divides the pixel location by the device scale
factor again. -/
def TemplateMatchingStrategy.get_location (scr : Screen) (search_region : Option ScreenRect)
    (shot : MatDims) (matchLoc : ℤ × ℤ) : Except NavError ScreenCoordinates :=
  let region := search_region.getD (ScreenRect.default scr)
  let rx := satI32 region.origin.1
  let ry := satI32 region.origin.2
  let rw := satI32 region.size.1
  let rh := satI32 region.size.2
  if rx < 0 ∨ ry < 0 ∨ rw < 0 ∨ rh < 0 ∨ shot.cols < rx + rw ∨ shot.rows < ry + rh then
    .error .roiError
  else
    ScreenCoordinates.new scr (matchLoc.1 : ℚ) (matchLoc.2 : ℚ)

/-- Outcome of a `LocationStrategy::get_location` call, distinguishing a
normal `Err(...)` return from a Rust panic, so that panicking placeholders
are observable in the model. -/
inductive StrategyOutcome where
  | ok (p : ScreenCoordinates)
  | err (e : NavError)
  | panicked (msg : String)
deriving DecidableEq

/-- True when the outcome is an ordinary `Err(...)` return value. -/
def StrategyOutcome.isErr : StrategyOutcome → Bool
  | .err _ => true
  | _ => false

/-- `EdgeParsingStrategy::get_location` (strategy.rs:145-152): the body is
the single macro call `unimplemented!()`, which panics with the fixed message
"not implemented" for every input. -/
def EdgeParsingStrategy.get_location (_search_region : Option ScreenRect) : StrategyOutcome :=
  .panicked "not implemented"

namespace Location

/-- The older revision of `ScreenCoordinates` in `src/nav/location.rs`
(integer-valued, backed by `opencv::core::Point`). -/
structure ScreenCoordinates where
  point : ℤ × ℤ
deriving DecidableEq

/-- `ScreenCoordinates::new` (location.rs:62-91): converts both inputs to
`u16` (failing for negative values or values above `u16::MAX`), then rejects
coordinates strictly beyond the screen extent. The screen extent itself is
cast `as u16`; physical screen sizes fit, so that cast is the identity. -/
def ScreenCoordinates.new (scr : Screen) (x y : ℤ) : Except NavError ScreenCoordinates :=
  if x < 0 ∨ 65535 < x then .error .screenCoordinateError
  else if y < 0 ∨ 65535 < y then .error .screenCoordinateError
  else if scr.width < x ∨ scr.height < y then .error .screenCoordinateError
  else .ok { point := (x, y) }

/-- `ImageTemplate` (location.rs:173-198): the decoded image itself lives
behind `imread`; only the name and the search region are program state. -/
structure ImageTemplate where
  name : String
  search_region : ℤ × ℤ × ℤ × ℤ

/-- `ImageTemplate::get_location` (location.rs:200-245). Injected
collaborators: `shot` is the dimensions of the screenshot Mat, `tpl` the
dimensions of the decoded template (`imread` + `size()`), and `matchLoc` the
best-match top-left location reported by `match_template` + `min_max_loc`
(relative to the search-region ROI). `Mat::roi` fails when the search region
leaves the screenshot. The result is the search-region origin plus the match
location plus half the template size (`i32` division truncates), passed to
`ScreenCoordinates::new`. -/
def ImageTemplate.get_location (scr : Screen) (t : ImageTemplate)
    (shot : MatDims) (tpl : MatDims) (matchLoc : ℤ × ℤ) :
    Except NavError ScreenCoordinates :=
  let (x, y, width, height) := t.search_region
  if x < 0 ∨ y < 0 ∨ width < 0 ∨ height < 0 ∨
      shot.cols < x + width ∨ shot.rows < y + height then
    .error .roiError
  else
    let absolute_x := x + matchLoc.1 + Int.tdiv tpl.cols 2
    let absolute_y := y + matchLoc.2 + Int.tdiv tpl.rows 2
    ScreenCoordinates.new scr absolute_x absolute_y

end Location

/-- A BGR raster image (`opencv::core::Mat` of type `CV_8UC3`), modelled as
its dimensions plus a pixel function. -/
structure Mat where
  rows : ℕ
  cols : ℕ
  px : ℕ → ℕ → ℕ × ℕ × ℕ

/-- Nonzero pixel positions of a Mat, as `(row, col)` pairs — what
`imgproc::bounding_rect` ranges over for a mask. -/
def Mat.nonzeroList (m : Mat) : List (ℕ × ℕ) :=
  (List.range m.rows).flatMap fun i =>
    (List.range m.cols).filterMap fun j =>
      if m.px i j ≠ (0, 0, 0) then some (i, j) else none

/-- `imgproc::bounding_rect`: the minimal up-right rectangle `(x, y, w, h)`
containing the nonzero pixels of a mask; the zero rectangle when the mask is
empty. -/
def Mat.boundingRect (m : Mat) : ℕ × ℕ × ℕ × ℕ :=
  match m.nonzeroList with
  | [] => (0, 0, 0, 0)
  | p :: rest =>
      let x0 := (rest.map (·.2)).foldl min p.2
      let x1 := (rest.map (·.2)).foldl max p.2
      let y0 := (rest.map (·.1)).foldl min p.1
      let y1 := (rest.map (·.1)).foldl max p.1
      (x0, y0, x1 - x0 + 1, y1 - y0 + 1)

/-- `Mat::roi` restricted to a rectangle `(x, y, w, h)` (pixel lookup only;
the bounds guard is at the call site). -/
def Mat.roi (m : Mat) (r : ℕ × ℕ × ℕ × ℕ) : Mat :=
  { rows := r.2.2.2, cols := r.2.2.1, px := fun i j => m.px (r.2.1 + i) (r.1 + j) }

/-- Grayscale value of one BGR pixel. `cvt_color(..., COLOR_BGR2GRAY, ...)`
is an external OpenCV collaborator; its exact fixed-point rounding is not
load-bearing, so the standard luma weights are used over the integers. -/
def grayPix (p : ℕ × ℕ × ℕ) : ℕ :=
  (299 * p.2.2 + 587 * p.2.1 + 114 * p.1) / 1000

/-- Grayscale conversion of both images, `core::compare(..., CMP_NE)`, then
`count_non_zero(diff) > 0`: true when some pixel's grayscale value differs. -/
def matsDiffer (a b : Mat) : Bool :=
  (List.range a.rows).any fun i =>
    (List.range a.cols).any fun j =>
      grayPix (a.px i j) != grayPix (b.px i j)

/-- `CheckUIState::changed_ui_state` (action.rs:44-110). With a check-zone
mask: reject masks larger than the `before` frame with `OutOfBoundsError`;
otherwise crop both frames to the bounding rectangle of the mask's nonzero
pixels (`Mat::roi` fails with an opencv error if that rectangle leaves either
frame) and report whether the grayscale crops differ anywhere. Without a
mask, compare the whole frames. -/
def CheckUIState.changed_ui_state (before after : Mat) (roi_mat : Option Mat) :
    Except NavError Bool :=
  match roi_mat with
  | some roi =>
      if before.cols < roi.cols ∨ before.rows < roi.rows then
        .error .outOfBoundsError
      else
        let r := roi.boundingRect
        if before.cols < r.1 + r.2.2.1 ∨ before.rows < r.2.1 + r.2.2.2 ∨
            after.cols < r.1 + r.2.2.1 ∨ after.rows < r.2.1 + r.2.2.2 then
          .error .roiError
        else
          .ok (matsDiffer (before.roi r) (after.roi r))
  | none => .ok (matsDiffer before after)

/-- Result of `GuiVerb::fire` (action.rs:117-137), instrumented with the
number of polls performed and the total milliseconds spent sleeping.
`ok` is `Ok(())`, `timedOut` is `Err(UIActionTimeOutError)`, and `underflow`
marks the unsigned subtraction `timeout -= 100` dropping below zero (a panic
in debug builds, a wrap-around in release builds). -/
inductive FireResult where
  | ok (polls elapsedMs : ℕ)
  | timedOut (elapsedMs : ℕ)
  | underflow (elapsedMs : ℕ)
deriving DecidableEq

/-- The polling loop of `GuiVerb::fire` (action.rs:125-132): while the
remaining `timeout` counter is positive, sleep `wait` milliseconds, capture a
frame (`changed tick` injects what `changed_ui_state` reports on the tick-th
poll), return success on a detected change, otherwise decrement the counter
by the hard-coded constant 100 and continue. -/
def fireLoop (changed : ℕ → Bool) (wait : ℕ) (timeout : ℕ) (tick elapsed : ℕ) : FireResult :=
  if _h1 : timeout = 0 then .timedOut elapsed
  else
    let e := elapsed + wait
    if changed tick then .ok (tick + 1) e
    else if _h2 : timeout < 100 then .underflow e
    else fireLoop changed wait (timeout - 100) (tick + 1) e
termination_by timeout
decreasing_by omega

/-- `GuiVerb::fire` (action.rs:117-137): defaults are 1000 ms timeout and
100 ms wait duration. -/
def GuiVerb.fire (changed : ℕ → Bool) (timeout wait_duration : Option ℕ) : FireResult :=
  fireLoop changed (wait_duration.getD 100) (timeout.getD 1000) 0 0

/-- Target description handed to verb constructors. The `TargetFactory` type
itself lives in a revision of `nav/location.rs` that is not in the sources;
its shape is fixed by its uses in click.rs/input.rs and the spec (section
3, TargetSpec): an absolute-point variant and a template variant owning a
decoded image whose `width()`/`height()` the verbs read. -/
inductive TargetFactory where
  | AbsoluteTarget
  | TemplateTarget (imageWidth imageHeight : ℕ)

/-- Check-zone selection in `Click::new` (click.rs:23-47): an explicit zone
wins; otherwise an absolute target gets `generate_rect(150, 150, Center)` at
the resolved point and a template target gets
`ScreenRect::new(target.x, target.y, template_width, template_height)`. -/
def Click.new_check_zone (scr : Screen) (target : ScreenCoordinates)
    (tf : TargetFactory) (check_zone : Option ScreenRect) : ScreenRect :=
  check_zone.getD
    (match tf with
     | .AbsoluteTarget => target.generate_rect scr 150 150 .Center
     | .TemplateTarget w h =>
         ScreenRect.new scr target.point.1 target.point.2 (w : ℚ) (h : ℚ))

/-- Check-zone selection in `Input::new` (input.rs:31-63): an explicit zone
wins; otherwise an absolute target gets `generate_rect(150, 150, Center)` at
the resolved point, while a template target subtracts half the template size
from the resolved point first and builds the rect from that top-left corner. -/
def Input.new_check_zone (scr : Screen) (target : ScreenCoordinates)
    (tf : TargetFactory) (check_zone : Option ScreenRect) : ScreenRect :=
  check_zone.getD
    (match tf with
     | .AbsoluteTarget => target.generate_rect scr 150 150 .Center
     | .TemplateTarget w h =>
         let top_left_x := target.point.1 - (w : ℚ) / 2
         let top_left_y := target.point.2 - (h : ℚ) / 2
         ScreenRect.new scr top_left_x top_left_y (w : ℚ) (h : ℚ))

/-! ## Theorems -/

/-- C9: for every raw input, the scaled-coordinate constructor yields a value
that is nonnegative, and inputs at or below zero clamp to exactly 0 rather
than failing (the constructor is total). -/
theorem coordinate_new_nonneg_clamps (scr : Screen) (v : ℚ) (hs : 0 < scr.scale) :
    0 ≤ (Coordinate.new scr v).val ∧ (v ≤ 0 → (Coordinate.new scr v).val = 0) := by
  by_cases h : 0 < v
  · refine ⟨?_, fun hv => absurd h (not_lt.mpr hv)⟩
    simp only [Coordinate.new, if_pos h]
    exact le_of_lt (div_pos h hs)
  · simp [Coordinate.new, h]

/-- Witness for C9 at scale factor 2 and raw input -5. -/
theorem coordinate_new_nonneg_clamps_witness :
    0 ≤ (Coordinate.new ⟨1920, 1080, 2⟩ (-5)).val ∧
      (Coordinate.new ⟨1920, 1080, 2⟩ (-5)).val = 0 :=
  ⟨(coordinate_new_nonneg_clamps ⟨1920, 1080, 2⟩ (-5) (by norm_num)).1,
   (coordinate_new_nonneg_clamps ⟨1920, 1080, 2⟩ (-5) (by norm_num)).2 (by norm_num)⟩

/-- C2 counterexample: on a 1920x1080 screen with scale factor 1, point
construction at x equal to the screen width succeeds — the guard is strict,
so the claim that x = width fails is false. -/
theorem screen_coordinates_new_boundary_succeeds :
    (ScreenCoordinates.new ⟨1920, 1080, 1⟩ 1920 0).isOk = true := by
  have h1 : Coordinate.new ⟨1920, 1080, 1⟩ 1920 = ⟨1920⟩ := by
    simp only [Coordinate.new, if_pos (by norm_num : (0 : ℚ) < 1920)]
    norm_num [Coordinate.mk.injEq]
  have h2 : Coordinate.new ⟨1920, 1080, 1⟩ 0 = ⟨0⟩ := by
    simp only [Coordinate.new]
    norm_num
  simp only [ScreenCoordinates.new, h1, h2]
  rw [if_neg (by norm_num)]
  rfl

/-- C2 (amended): point construction fails exactly when the scaled x strictly
exceeds the screen width or the scaled y strictly exceeds the screen height;
values equal to the extent are accepted. -/
theorem screen_coordinates_new_ok_iff (scr : Screen) (x y : ℚ) :
    (ScreenCoordinates.new scr x y).isOk = true ↔
      ((Coordinate.new scr x).val ≤ (scr.width : ℚ) ∧
       (Coordinate.new scr y).val ≤ (scr.height : ℚ)) := by
  simp only [ScreenCoordinates.new]
  split
  next h =>
    constructor
    · intro hh; exact absurd hh (by simp [Except.isOk, Except.toBool])
    · rintro ⟨h1, h2⟩
      rcases h with h | h
      · exact absurd h1 (not_le.mpr h)
      · exact absurd h2 (not_le.mpr h)
  next h =>
    push_neg at h
    exact ⟨fun _ => h, fun _ => rfl⟩

/-- C10 counterexample: with scale factor 2 on a 1920x1080 screen, shifting
the valid point (10,10) by (-15,-15) succeeds and clamps to the origin
(0,0), not to the claimed value ((10-15)/2, (10-15)/2) = (-5/2, -5/2). -/
theorem shift_clamp_counterexample :
    ScreenCoordinates.shift ⟨1920, 1080, 2⟩ ⟨(10, 10)⟩ (-15) (-15) =
        .ok ⟨(0, 0)⟩ ∧
      (0 : ℚ) ≠ (10 + (-15)) / 2 := by
  constructor
  · have h1 : Coordinate.new ⟨1920, 1080, 2⟩ (10 + (-15)) = ⟨0⟩ := by
      simp only [Coordinate.new]
      norm_num
    simp only [ScreenCoordinates.shift, ScreenCoordinates.new, h1]
    rw [if_neg (by norm_num)]
  · norm_num

/-- C10 (amended): whenever a shift succeeds, each axis of the returned point
is the shifted (already scaled) coordinate passed through `Coordinate::new`
again — divided by the scale factor when positive, clamped to 0 otherwise —
and consequently the identity shift(p, 0, 0) = p holds for every valid
on-screen point when the scale factor is 1. -/
theorem shift_rescale_formula :
    (∀ (scr : Screen) (p : ScreenCoordinates) (dx dy : ℚ) (q : ScreenCoordinates),
        ScreenCoordinates.shift scr p dx dy = .ok q →
          q.point = ((Coordinate.new scr (p.point.1 + dx)).val,
                     (Coordinate.new scr (p.point.2 + dy)).val)) ∧
    (∀ (scr : Screen) (p : ScreenCoordinates),
        scr.scale = 1 → 0 ≤ p.point.1 → p.point.1 ≤ (scr.width : ℚ) →
        0 ≤ p.point.2 → p.point.2 ≤ (scr.height : ℚ) →
          ScreenCoordinates.shift scr p 0 0 = .ok p) := by
  constructor
  · intro scr p dx dy q h
    simp only [ScreenCoordinates.shift, ScreenCoordinates.new] at h
    split at h
    next hc => exact absurd h (by simp)
    next hc =>
      injection h with h
      subst h
      rfl
  · intro scr p hs hx0 hx1 hy0 hy1
    have hcx : (Coordinate.new scr (p.point.1 + 0)).val = p.point.1 := by
      rw [add_zero]
      by_cases h : 0 < p.point.1
      · simp [Coordinate.new, h, hs]
      · have h0 : p.point.1 = 0 := le_antisymm (not_lt.mp h) hx0
        simp [Coordinate.new, h0]
    have hcy : (Coordinate.new scr (p.point.2 + 0)).val = p.point.2 := by
      rw [add_zero]
      by_cases h : 0 < p.point.2
      · simp [Coordinate.new, h, hs]
      · have h0 : p.point.2 = 0 := le_antisymm (not_lt.mp h) hy0
        simp [Coordinate.new, h0]
    simp only [ScreenCoordinates.shift, ScreenCoordinates.new, hcx, hcy]
    rw [if_neg (by push_neg; exact ⟨hx1, hy1⟩)]

/-- Witness for C10 (amended): the formula part applied to a successful shift
at scale 2, and the identity part at scale 1. -/
theorem shift_rescale_formula_witness :
    ((⟨(7, 7)⟩ : ScreenCoordinates).point =
      ((Coordinate.new ⟨1920, 1080, 2⟩ ((10 : ℚ) + 4)).val,
       (Coordinate.new ⟨1920, 1080, 2⟩ ((10 : ℚ) + 4)).val)) ∧
    ScreenCoordinates.shift ⟨1920, 1080, 1⟩ ⟨(5, 6)⟩ 0 0 = .ok ⟨(5, 6)⟩ := by
  have hshift : ScreenCoordinates.shift ⟨1920, 1080, 2⟩ ⟨(10, 10)⟩ 4 4 =
      .ok ⟨(7, 7)⟩ := by
    have h1 : Coordinate.new ⟨1920, 1080, 2⟩ ((10 : ℚ) + 4) = ⟨7⟩ := by
      simp only [Coordinate.new, if_pos (by norm_num : (0 : ℚ) < 10 + 4)]
      norm_num [Coordinate.mk.injEq]
    simp only [ScreenCoordinates.shift, ScreenCoordinates.new, h1]
    rw [if_neg (by norm_num)]
  exact ⟨shift_rescale_formula.1 ⟨1920, 1080, 2⟩ ⟨(10, 10)⟩ 4 4 ⟨(7, 7)⟩ hshift,
    shift_rescale_formula.2 ⟨1920, 1080, 1⟩ ⟨(5, 6)⟩ rfl (by norm_num) (by norm_num)
      (by norm_num) (by norm_num)⟩

/-- C4 counterexample: invoking the EdgeParsing strategy with no search
region panics via `unimplemented!` — the outcome is a panic, not a returned
"not implemented" error value. -/
theorem edge_parsing_panics_counterexample :
    EdgeParsingStrategy.get_location none = .panicked "not implemented" ∧
      (EdgeParsingStrategy.get_location none).isErr = false := ⟨rfl, rfl⟩

/-- C4 (amended): for every search region, the EdgeParsing strategy's
get_location panics through the `unimplemented!` macro with the fixed message
"not implemented" — a loud, distinct failure rather than a silent no-op, but
a panic rather than a returned error value. -/
theorem edge_parsing_always_panics (search_region : Option ScreenRect) :
    EdgeParsingStrategy.get_location search_region = .panicked "not implemented" := rfl

/-- Casts of integers through truncation toward zero are the identity. -/
theorem truncQ_intCast (n : ℤ) : truncQ (n : ℚ) = n := by
  unfold truncQ
  split
  · exact Int.floor_intCast n
  · exact Int.ceil_intCast n

/-- C6: whenever the check-zone mask is wider or taller than the captured
`before` frame, the frame-comparison step returns the typed out-of-bounds
error (no panic, no silent crop). -/
theorem changed_ui_state_oversized_zone_errors (before after roi : Mat)
    (h : before.cols < roi.cols ∨ before.rows < roi.rows) :
    CheckUIState.changed_ui_state before after (some roi) = .error .outOfBoundsError := by
  simp only [CheckUIState.changed_ui_state]
  rw [if_pos h]

/-- Witness for C6: a 2x2 check-zone mask against 1x1 frames. -/
theorem changed_ui_state_oversized_zone_errors_witness :
    CheckUIState.changed_ui_state ⟨1, 1, fun _ _ => (0, 0, 0)⟩
        ⟨1, 1, fun _ _ => (0, 0, 0)⟩ (some ⟨2, 2, fun _ _ => (0, 0, 0)⟩) =
      .error .outOfBoundsError :=
  changed_ui_state_oversized_zone_errors _ _ _ (Or.inl (by decide))

/-- C1: on a 1920x1080 screen with scale factor 1, a full-screen search
region and a 20x20 template whose best match is reported at (50,50), the
current `TemplateMatchingStrategy::get_location` (strategy.rs) returns the
raw top-left (50,50) — it omits the mandatory centroid offset — while the
older `ImageTemplate::get_location` (location.rs) returns the centred
(60,60) the claim (and the spec) describe. -/
theorem template_matching_returns_raw_top_left :
    TemplateMatchingStrategy.get_location ⟨1920, 1080, 1⟩ none ⟨1920, 1080⟩ (50, 50) =
        .ok ⟨(50, 50)⟩ ∧
    Location.ImageTemplate.get_location ⟨1920, 1080, 1⟩ ⟨"tpl", (0, 0, 1920, 1080)⟩
        ⟨1920, 1080⟩ ⟨20, 20⟩ (50, 50) = .ok ⟨(60, 60)⟩ ∧
    ((50 : ℚ), (50 : ℚ)) ≠ ((60 : ℚ), (60 : ℚ)) := by
  refine ⟨?_, by rfl, by norm_num [Prod.ext_iff]⟩
  have hc0 : Coordinate.new ⟨1920, 1080, 1⟩ 0 = ⟨0⟩ := by
    simp [Coordinate.new]
  have hdef : ScreenRect.default ⟨1920, 1080, 1⟩ = ⟨(0, 0), (1920, 1080)⟩ := by
    simp only [ScreenRect.default, ScreenRect.new, hc0]
    norm_num [u64cast, truncQ, ScreenRect.mk.injEq, Prod.ext_iff]
  have hnew : ScreenCoordinates.new ⟨1920, 1080, 1⟩ (((50 : ℤ) : ℚ)) (((50 : ℤ) : ℚ)) =
      .ok ⟨(50, 50)⟩ := by
    have h50 : Coordinate.new ⟨1920, 1080, 1⟩ (((50 : ℤ) : ℚ)) = ⟨50⟩ := by
      simp only [Coordinate.new, if_pos (by norm_num : (0 : ℚ) < ((50 : ℤ) : ℚ))]
      norm_num [Coordinate.mk.injEq]
    simp only [ScreenCoordinates.new, h50]
    rw [if_neg (by norm_num)]
  simp only [TemplateMatchingStrategy.get_location, Option.getD, hdef]
  rw [if_neg (by norm_num [satI32, truncQ])]
  exact hnew

/-- When no poll ever detects a change, the fire loop performs one
100-decrement per poll: with `timeout = 100 * n` it sleeps exactly `n` times
`wait` milliseconds and then reports the timeout. -/
theorem fireLoop_never_changed (wait : ℕ) :
    ∀ (n : ℕ) (changed : ℕ → Bool) (tick elapsed : ℕ),
      (∀ k < n, changed (tick + k) = false) →
      fireLoop changed wait (100 * n) tick elapsed = .timedOut (elapsed + n * wait) := by
  intro n
  induction n with
  | zero =>
      intro changed tick elapsed _
      rw [fireLoop]
      norm_num
  | succ m ih =>
      intro changed tick elapsed h
      have h0 : changed tick = false := by simpa using h 0 (by omega)
      rw [fireLoop, dif_neg (by omega : ¬100 * (m + 1) = 0)]
      simp only [h0, Bool.false_eq_true, if_false]
      rw [dif_neg (by omega : ¬100 * (m + 1) < 100)]
      have e1 : 100 * (m + 1) - 100 = 100 * m := by omega
      rw [e1]
      have h' : ∀ k < m, changed (tick + 1 + k) = false := by
        intro k hk
        have := h (k + 1) (by omega)
        rwa [show tick + (k + 1) = tick + 1 + k by omega] at this
      rw [ih changed (tick + 1) (elapsed + wait) h']
      congr 1
      ring

/-- When the first detected change is on poll `k` (0-indexed) and the
100-decrement counter still allows that poll, the fire loop returns success
on that very poll, having slept `k + 1` times. -/
theorem fireLoop_first_change (wait : ℕ) :
    ∀ (k n : ℕ) (changed : ℕ → Bool) (tick elapsed : ℕ),
      k < n →
      changed (tick + k) = true →
      (∀ j < k, changed (tick + j) = false) →
      fireLoop changed wait (100 * n) tick elapsed =
        .ok (tick + k + 1) (elapsed + (k + 1) * wait) := by
  intro k
  induction k with
  | zero =>
      intro n changed tick elapsed hkn hc _
      have hc' : changed tick = true := by simpa using hc
      rw [fireLoop, dif_neg (by omega : ¬100 * n = 0)]
      simp only [hc', if_true]
      norm_num
  | succ m ih =>
      intro n changed tick elapsed hkn hc hj
      have h0 : changed tick = false := by simpa using hj 0 (by omega)
      rw [fireLoop, dif_neg (by omega : ¬100 * n = 0)]
      simp only [h0, Bool.false_eq_true, if_false]
      rw [dif_neg (by omega : ¬100 * n < 100)]
      have e1 : 100 * n - 100 = 100 * (n - 1) := by omega
      rw [e1]
      have hc' : changed (tick + 1 + m) = true := by
        rwa [show tick + 1 + m = tick + (m + 1) by omega]
      have hj' : ∀ j < m, changed (tick + 1 + j) = false := by
        intro j hjm
        have := hj (j + 1) (by omega)
        rwa [show tick + (j + 1) = tick + 1 + j by omega] at this
      rw [ih (n - 1) changed (tick + 1) (elapsed + wait) (by omega) hc' hj']
      have e2 : tick + 1 + m + 1 = tick + (m + 1) + 1 := by omega
      have e3 : elapsed + wait + (m + 1) * wait = elapsed + (m + 1 + 1) * wait := by ring
      rw [e2, e3]

/-- C3: firing a verb whose frames never differ, with timeout 1000 ms and
poll interval 200 ms, sleeps 10 x 200 = 2000 ms before reporting the
timeout — the loop decrements its counter by a hard-coded 100 per tick
instead of measuring elapsed time, so the reported timeout arrives after
about twice the configured timeout, well beyond one poll interval. -/
theorem fire_counter_ignores_elapsed_time :
    GuiVerb.fire (fun _ => false) (some 1000) (some 200) = .timedOut 2000 ∧
      ¬((2000 : ℕ) ≤ 1000 + 200) := by
  constructor
  · have := fireLoop_never_changed 200 10 (fun _ => false) 0 0 (fun _ _ => rfl)
    simpa [GuiVerb.fire] using this
  · norm_num

/-- C7 counterexample: with a 150 ms timeout (not a multiple of the
hard-coded 100 ms decrement) and frames that never differ, the second
iteration computes `50 - 100` on an unsigned counter: the firing neither
succeeds nor returns the timeout error — it dies in the underflow (a panic
in debug builds), so the timeout outcome is not the only failure mode. -/
theorem fire_underflow_counterexample :
    GuiVerb.fire (fun _ => false) (some 150) none = .underflow 200 := by
  simp only [GuiVerb.fire, Option.getD]
  rw [fireLoop]
  norm_num
  rw [fireLoop]
  norm_num

/-- C7 (amended): when the configured timeout is a multiple of the
hard-coded 100 ms decrement (the 1000 ms default included), a poll that
detects the awaited change makes fire return success immediately on that
tick with no further polls, and if no poll within the budget detects a
change, fire returns the timeout outcome as an ordinary error value — the
only failure mode there. Timeouts that are not multiples of 100 instead
underflow the unsigned counter. -/
theorem fire_immediate_success_or_timeout (changed : ℕ → Bool) (timeout wait : ℕ)
    (hdvd : 100 ∣ timeout) :
    (∀ k, k < timeout / 100 → changed k = true → (∀ j < k, changed j = false) →
        GuiVerb.fire changed (some timeout) (some wait) = .ok (k + 1) ((k + 1) * wait)) ∧
    ((∀ k < timeout / 100, changed k = false) →
        GuiVerb.fire changed (some timeout) (some wait) =
          .timedOut (timeout / 100 * wait)) := by
  obtain ⟨n, rfl⟩ := hdvd
  rw [Nat.mul_div_cancel_left _ (by norm_num : 0 < 100)]
  constructor
  · intro k hk hc hj
    have := fireLoop_first_change wait k n changed 0 0 hk (by simpa using hc)
      (by simpa using hj)
    simpa [GuiVerb.fire] using this
  · intro h
    have := fireLoop_never_changed wait n changed 0 0 (by simpa using h)
    simpa [GuiVerb.fire] using this

/-- Witness for C7 (amended): with the change first visible on the second
poll, firing with the default-sized budget returns success on that poll. -/
theorem fire_immediate_success_or_timeout_witness :
    GuiVerb.fire (fun k => k == 1) (some 1000) (some 100) = .ok 2 200 := by
  have := (fire_immediate_success_or_timeout (fun k => k == 1) 1000 100
      ⟨10, rfl⟩).1 1 (by norm_num) (by decide) (by decide)
  simpa using this

/-- The saturating `f64 as i32` cast of an anchor coordinate lying inside
the screen stays inside the screen. -/
theorem satI32_bounds {q : ℚ} {w : ℤ} (h0 : 0 ≤ q) (h1 : q ≤ (w : ℚ)) :
    0 ≤ satI32 q ∧ satI32 q ≤ w := by
  have hf0 : (0 : ℤ) ≤ ⌊q⌋ := Int.le_floor.mpr (by exact_mod_cast h0)
  have hfw : ⌊q⌋ ≤ w := by simpa using Int.floor_mono h1
  unfold satI32 truncQ
  rw [if_pos h0]
  omega

/-- The wrapping `u64 as i32` cast is the identity below `2^31`. -/
theorem i32cast_of_lt {n : ℕ} (h : (n : ℤ) < 2 ^ 31) : i32cast n = n := by
  unfold i32cast
  omega

/-- A nonnegative integer survives the `f64 as u64` cast unchanged. -/
theorem u64cast_intCast_of_nonneg {n : ℤ} (h : 0 ≤ n) : u64cast (n : ℚ) = n := by
  unfold u64cast
  rw [truncQ_intCast]
  omega

/-- With a device scale factor of at least 1, `Coordinate::new` of a
nonnegative integer input yields a value between 0 and that input. -/
theorem coordinate_new_int_le (scr : Screen) (rx : ℤ) (hs : 1 ≤ scr.scale) (h0 : 0 ≤ rx) :
    0 ≤ (Coordinate.new scr (rx : ℚ)).val ∧ (Coordinate.new scr (rx : ℚ)).val ≤ (rx : ℚ) := by
  unfold Coordinate.new
  split
  next h =>
    exact ⟨div_nonneg (le_of_lt h) (le_trans zero_le_one hs), div_le_self (le_of_lt h) hs⟩
  next _ =>
    exact ⟨le_refl 0, show (0 : ℚ) ≤ (rx : ℚ) by exact_mod_cast h0⟩

/-- Core geometry of `ScreenRect::new` on integer inputs describing a box
already inside the screen: the requested size survives the second truncation
untouched, the origin is the re-scaled anchor, and the rectangle stays fully
inside the screen whenever the device scale factor is at least 1. -/
theorem screenRect_new_int_inside (scr : Screen) (rx ry rw rh : ℤ)
    (hs : 1 ≤ scr.scale)
    (hrx : 0 ≤ rx) (hrw : 0 ≤ rw) (hxw : rx + rw ≤ scr.width)
    (hry : 0 ≤ ry) (hrh : 0 ≤ rh) (hyh : ry + rh ≤ scr.height) :
    (ScreenRect.new scr (rx : ℚ) (ry : ℚ) (rw : ℚ) (rh : ℚ)).size = ((rw : ℚ), (rh : ℚ)) ∧
    0 ≤ (ScreenRect.new scr (rx : ℚ) (ry : ℚ) (rw : ℚ) (rh : ℚ)).origin.1 ∧
    0 ≤ (ScreenRect.new scr (rx : ℚ) (ry : ℚ) (rw : ℚ) (rh : ℚ)).origin.2 ∧
    (ScreenRect.new scr (rx : ℚ) (ry : ℚ) (rw : ℚ) (rh : ℚ)).origin.1 + (rw : ℚ) ≤ (scr.width : ℚ) ∧
    (ScreenRect.new scr (rx : ℚ) (ry : ℚ) (rw : ℚ) (rh : ℚ)).origin.2 + (rh : ℚ) ≤ (scr.height : ℚ) := by
  obtain ⟨hcx0, hcxle⟩ := coordinate_new_int_le scr rx hs hrx
  obtain ⟨hcy0, hcyle⟩ := coordinate_new_int_le scr ry hs hry
  have hfx0 : (0 : ℤ) ≤ ⌊(Coordinate.new scr (rx : ℚ)).val⌋ := Int.le_floor.mpr (by exact_mod_cast hcx0)
  have hfy0 : (0 : ℤ) ≤ ⌊(Coordinate.new scr (ry : ℚ)).val⌋ := Int.le_floor.mpr (by exact_mod_cast hcy0)
  have hfxle : ⌊(Coordinate.new scr (rx : ℚ)).val⌋ ≤ rx := by simpa using Int.floor_mono hcxle
  have hfyle : ⌊(Coordinate.new scr (ry : ℚ)).val⌋ ≤ ry := by simpa using Int.floor_mono hcyle
  have hux : u64cast (Coordinate.new scr (rx : ℚ)).val = ⌊(Coordinate.new scr (rx : ℚ)).val⌋ := by
    unfold u64cast truncQ
    rw [if_pos hcx0]
    omega
  have huy : u64cast (Coordinate.new scr (ry : ℚ)).val = ⌊(Coordinate.new scr (ry : ℚ)).val⌋ := by
    unfold u64cast truncQ
    rw [if_pos hcy0]
    omega
  have hminw : min (u64cast (rw : ℚ)) (scr.width - u64cast (Coordinate.new scr (rx : ℚ)).val) = rw := by
    rw [u64cast_intCast_of_nonneg hrw, hux]
    omega
  have hminh : min (u64cast (rh : ℚ)) (scr.height - u64cast (Coordinate.new scr (ry : ℚ)).val) = rh := by
    rw [u64cast_intCast_of_nonneg hrh, huy]
    omega
  have hxsum : (Coordinate.new scr (rx : ℚ)).val + (rw : ℚ) ≤ (scr.width : ℚ) := by
    have hc : ((rx : ℚ) + (rw : ℚ)) ≤ ((scr.width : ℤ) : ℚ) := by exact_mod_cast hxw
    linarith
  have hysum : (Coordinate.new scr (ry : ℚ)).val + (rh : ℚ) ≤ (scr.height : ℚ) := by
    have hc : ((ry : ℚ) + (rh : ℚ)) ≤ ((scr.height : ℤ) : ℚ) := by exact_mod_cast hyh
    linarith
  refine ⟨?_, ?_, ?_, ?_, ?_⟩
  · simp only [ScreenRect.new, hminw, hminh]
  · simp only [ScreenRect.new]
    exact hcx0
  · simp only [ScreenRect.new]
    exact hcy0
  · simp only [ScreenRect.new]
    exact hxsum
  · simp only [ScreenRect.new]
    exact hysum

/-- Truncating division of a nonnegative integer by two is nonnegative and
no larger than the dividend. -/
theorem int_tdiv_two_bounds {a : ℤ} (h : 0 ≤ a) : 0 ≤ Int.tdiv a 2 ∧ Int.tdiv a 2 ≤ a := by
  obtain ⟨m, rfl⟩ : ∃ m : ℕ, a = (m : ℤ) := ⟨a.toNat, (Int.toNat_of_nonneg h).symm⟩
  rw [show Int.tdiv (m : ℤ) 2 = ((m / 2 : ℕ) : ℤ) from rfl]
  exact ⟨by positivity, by exact_mod_cast Nat.div_le_self m 2⟩

/-- Packaging of `screenRect_new_int_inside` in the component order used by
the main `generate_rect` theorem. -/
theorem screenRect_new_int_components (scr : Screen) (rx ry rwv rhv : ℤ)
    (hs : 1 ≤ scr.scale)
    (hrx : 0 ≤ rx) (hrw : 0 ≤ rwv) (hxw : rx + rwv ≤ scr.width)
    (hry : 0 ≤ ry) (hrh : 0 ≤ rhv) (hyh : ry + rhv ≤ scr.height) :
    (ScreenRect.new scr (rx : ℚ) (ry : ℚ) (rwv : ℚ) (rhv : ℚ)).size.1 = (rwv : ℚ) ∧
    (ScreenRect.new scr (rx : ℚ) (ry : ℚ) (rwv : ℚ) (rhv : ℚ)).size.2 = (rhv : ℚ) ∧
    0 ≤ (ScreenRect.new scr (rx : ℚ) (ry : ℚ) (rwv : ℚ) (rhv : ℚ)).origin.1 ∧
    0 ≤ (ScreenRect.new scr (rx : ℚ) (ry : ℚ) (rwv : ℚ) (rhv : ℚ)).origin.2 ∧
    0 ≤ (ScreenRect.new scr (rx : ℚ) (ry : ℚ) (rwv : ℚ) (rhv : ℚ)).size.1 ∧
    0 ≤ (ScreenRect.new scr (rx : ℚ) (ry : ℚ) (rwv : ℚ) (rhv : ℚ)).size.2 ∧
    (ScreenRect.new scr (rx : ℚ) (ry : ℚ) (rwv : ℚ) (rhv : ℚ)).origin.1 +
        (ScreenRect.new scr (rx : ℚ) (ry : ℚ) (rwv : ℚ) (rhv : ℚ)).size.1 ≤ (scr.width : ℚ) ∧
    (ScreenRect.new scr (rx : ℚ) (ry : ℚ) (rwv : ℚ) (rhv : ℚ)).origin.2 +
        (ScreenRect.new scr (rx : ℚ) (ry : ℚ) (rwv : ℚ) (rhv : ℚ)).size.2 ≤ (scr.height : ℚ) := by
  obtain ⟨hsz, ho1, ho2, hb1, hb2⟩ :=
    screenRect_new_int_inside scr rx ry rwv rhv hs hrx hrw hxw hry hrh hyh
  have h1 : (ScreenRect.new scr (rx : ℚ) (ry : ℚ) (rwv : ℚ) (rhv : ℚ)).size.1 = (rwv : ℚ) := by
    rw [hsz]
  have h2 : (ScreenRect.new scr (rx : ℚ) (ry : ℚ) (rwv : ℚ) (rhv : ℚ)).size.2 = (rhv : ℚ) := by
    rw [hsz]
  refine ⟨h1, h2, ho1, ho2, ?_, ?_, ?_, ?_⟩
  · rw [h1]
    exact_mod_cast hrw
  · rw [h2]
    exact_mod_cast hrh
  · rw [h1]
    exact hb1
  · rw [h2]
    exact hb2

/-- C5 (amended): for every anchor point inside the screen bounds, every
requested size below `2^31` (screen-sized and beyond included — only the
`i32` wrap region is excluded), every anchor mode, and every device scale
factor of at least 1, `generate_rect` is total, truncates the requested
width/height to `min(requested, distance from the anchor to the relevant
screen edge)` — the symmetric two-sided distance for the Center anchor,
truncated before the halving — and the resulting rectangle lies fully
inside `[0, width] x [0, height]`. At `2^31` and above the `u64 as i32`
cast wraps the request negative, producing zero-width rectangles instead of
edge-truncated ones and overflowing the corner anchors' subtractions. -/
theorem generate_rect_truncates_and_stays_inside (scr : Screen) (p : ScreenCoordinates)
    (width height : ℕ) (anchor : PointAsRectAnchor) (r : ScreenRect)
    (hr : r = ScreenCoordinates.generate_rect scr p width height anchor)
    (hs : 1 ≤ scr.scale)
    (hx0 : 0 ≤ p.point.1) (hx1 : p.point.1 ≤ (scr.width : ℚ))
    (hy0 : 0 ≤ p.point.2) (hy1 : p.point.2 ≤ (scr.height : ℚ))
    (hw31 : (width : ℤ) < 2 ^ 31) (hh31 : (height : ℤ) < 2 ^ 31) :
    r.size.1 = ((min (width : ℤ) (specAnchorDistX scr (satI32 p.point.1) anchor) : ℤ) : ℚ) ∧
    r.size.2 = ((min (height : ℤ) (specAnchorDistY scr (satI32 p.point.2) anchor) : ℤ) : ℚ) ∧
    0 ≤ r.origin.1 ∧ 0 ≤ r.origin.2 ∧ 0 ≤ r.size.1 ∧ 0 ≤ r.size.2 ∧
    r.origin.1 + r.size.1 ≤ (scr.width : ℚ) ∧
    r.origin.2 + r.size.2 ≤ (scr.height : ℚ) := by
  subst hr
  obtain ⟨hxi0, hxiW⟩ := satI32_bounds hx0 hx1
  obtain ⟨hyi0, hyiH⟩ := satI32_bounds hy0 hy1
  cases anchor with
  | TopLeft =>
      have hgen : ScreenCoordinates.generate_rect scr p width height .TopLeft =
          ScreenRect.new scr ((satI32 p.point.1 : ℤ) : ℚ) ((satI32 p.point.2 : ℤ) : ℚ)
            ((min (width : ℤ) (scr.width - satI32 p.point.1) : ℤ) : ℚ)
            ((min (height : ℤ) (scr.height - satI32 p.point.2) : ℤ) : ℚ) := by
        simp only [ScreenCoordinates.generate_rect, i32cast_of_lt hw31, i32cast_of_lt hh31]
      rw [hgen]
      simp only [specAnchorDistX, specAnchorDistY]
      exact screenRect_new_int_components scr _ _ _ _ hs hxi0 (by omega) (by omega)
        hyi0 (by omega) (by omega)
  | TopRight =>
      have hgen : ScreenCoordinates.generate_rect scr p width height .TopRight =
          ScreenRect.new scr
            ((satI32 p.point.1 - min (width : ℤ) (satI32 p.point.1) : ℤ) : ℚ)
            ((satI32 p.point.2 : ℤ) : ℚ)
            ((min (width : ℤ) (satI32 p.point.1) : ℤ) : ℚ)
            ((min (height : ℤ) (scr.height - satI32 p.point.2) : ℤ) : ℚ) := by
        simp only [ScreenCoordinates.generate_rect, i32cast_of_lt hw31, i32cast_of_lt hh31]
      rw [hgen]
      simp only [specAnchorDistX, specAnchorDistY]
      exact screenRect_new_int_components scr _ _ _ _ hs (by omega) (by omega) (by omega)
        hyi0 (by omega) (by omega)
  | BottomLeft =>
      have hgen : ScreenCoordinates.generate_rect scr p width height .BottomLeft =
          ScreenRect.new scr
            ((satI32 p.point.1 : ℤ) : ℚ)
            ((satI32 p.point.2 - min (height : ℤ) (satI32 p.point.2) : ℤ) : ℚ)
            ((min (width : ℤ) (scr.width - satI32 p.point.1) : ℤ) : ℚ)
            ((min (height : ℤ) (satI32 p.point.2) : ℤ) : ℚ) := by
        simp only [ScreenCoordinates.generate_rect, i32cast_of_lt hw31, i32cast_of_lt hh31]
      rw [hgen]
      simp only [specAnchorDistX, specAnchorDistY]
      exact screenRect_new_int_components scr _ _ _ _ hs hxi0 (by omega) (by omega)
        (by omega) (by omega) (by omega)
  | BottomRight =>
      have hgen : ScreenCoordinates.generate_rect scr p width height .BottomRight =
          ScreenRect.new scr
            ((satI32 p.point.1 - min (width : ℤ) (satI32 p.point.1) : ℤ) : ℚ)
            ((satI32 p.point.2 - min (height : ℤ) (satI32 p.point.2) : ℤ) : ℚ)
            ((min (width : ℤ) (satI32 p.point.1) : ℤ) : ℚ)
            ((min (height : ℤ) (satI32 p.point.2) : ℤ) : ℚ) := by
        simp only [ScreenCoordinates.generate_rect, i32cast_of_lt hw31, i32cast_of_lt hh31]
      rw [hgen]
      simp only [specAnchorDistX, specAnchorDistY]
      exact screenRect_new_int_components scr _ _ _ _ hs (by omega) (by omega) (by omega)
        (by omega) (by omega) (by omega)
  | Center =>
      obtain ⟨hqx0, hqxle⟩ := int_tdiv_two_bounds
        (show (0 : ℤ) ≤ min (width : ℤ) (min (satI32 p.point.1) (scr.width - satI32 p.point.1))
          by omega)
      obtain ⟨hqy0, hqyle⟩ := int_tdiv_two_bounds
        (show (0 : ℤ) ≤ min (height : ℤ) (min (satI32 p.point.2) (scr.height - satI32 p.point.2))
          by omega)
      have hgen : ScreenCoordinates.generate_rect scr p width height .Center =
          ScreenRect.new scr
            ((satI32 p.point.1 -
                Int.tdiv (min (width : ℤ) (min (satI32 p.point.1) (scr.width - satI32 p.point.1))) 2 : ℤ) : ℚ)
            ((satI32 p.point.2 -
                Int.tdiv (min (height : ℤ) (min (satI32 p.point.2) (scr.height - satI32 p.point.2))) 2 : ℤ) : ℚ)
            ((min (width : ℤ) (min (satI32 p.point.1) (scr.width - satI32 p.point.1)) : ℤ) : ℚ)
            ((min (height : ℤ) (min (satI32 p.point.2) (scr.height - satI32 p.point.2)) : ℤ) : ℚ) := by
        simp only [ScreenCoordinates.generate_rect, i32cast_of_lt hw31, i32cast_of_lt hh31]
      rw [hgen]
      simp only [specAnchorDistX, specAnchorDistY]
      exact screenRect_new_int_components scr _ _ _ _ hs (by omega) (by omega) (by omega)
        (by omega) (by omega) (by omega)

/-- Witness for C5: a 4000x4000 request center-anchored at (100, 100) on a
1920x1080 screen with scale factor 1 truncates to 100x100 and stays inside
the screen. -/
theorem generate_rect_truncates_and_stays_inside_witness :
    ((ScreenCoordinates.generate_rect ⟨1920, 1080, 1⟩ ⟨(100, 100)⟩ 4000 4000 .Center).size.1 =
        ((min (4000 : ℤ) (specAnchorDistX ⟨1920, 1080, 1⟩ (satI32 (100 : ℚ)) .Center) : ℤ) : ℚ) ∧
      (ScreenCoordinates.generate_rect ⟨1920, 1080, 1⟩ ⟨(100, 100)⟩ 4000 4000 .Center).size.2 =
        ((min (4000 : ℤ) (specAnchorDistY ⟨1920, 1080, 1⟩ (satI32 (100 : ℚ)) .Center) : ℤ) : ℚ) ∧
      0 ≤ (ScreenCoordinates.generate_rect ⟨1920, 1080, 1⟩ ⟨(100, 100)⟩ 4000 4000 .Center).origin.1 ∧
      0 ≤ (ScreenCoordinates.generate_rect ⟨1920, 1080, 1⟩ ⟨(100, 100)⟩ 4000 4000 .Center).origin.2 ∧
      0 ≤ (ScreenCoordinates.generate_rect ⟨1920, 1080, 1⟩ ⟨(100, 100)⟩ 4000 4000 .Center).size.1 ∧
      0 ≤ (ScreenCoordinates.generate_rect ⟨1920, 1080, 1⟩ ⟨(100, 100)⟩ 4000 4000 .Center).size.2 ∧
      (ScreenCoordinates.generate_rect ⟨1920, 1080, 1⟩ ⟨(100, 100)⟩ 4000 4000 .Center).origin.1 +
          (ScreenCoordinates.generate_rect ⟨1920, 1080, 1⟩ ⟨(100, 100)⟩ 4000 4000 .Center).size.1 ≤
        ((1920 : ℤ) : ℚ) ∧
      (ScreenCoordinates.generate_rect ⟨1920, 1080, 1⟩ ⟨(100, 100)⟩ 4000 4000 .Center).origin.2 +
          (ScreenCoordinates.generate_rect ⟨1920, 1080, 1⟩ ⟨(100, 100)⟩ 4000 4000 .Center).size.2 ≤
        ((1080 : ℤ) : ℚ)) :=
  generate_rect_truncates_and_stays_inside ⟨1920, 1080, 1⟩ ⟨(100, 100)⟩ 4000 4000 .Center _
    rfl (by norm_num) (by norm_num) (by norm_num) (by norm_num) (by norm_num)
    (by norm_num) (by norm_num)


/-- The saturating `f64 as i32` cast is the identity on in-range integers. -/
theorem satI32_intCast {n : ℤ} (h1 : -(2 ^ 31) ≤ n) (h2 : n ≤ 2 ^ 31 - 1) :
    satI32 (n : ℚ) = n := by
  unfold satI32
  rw [truncQ_intCast]
  omega

/-- The `f64 as u64` cast of a nonnegative rational is its floor. -/
theorem u64cast_eq_floor {q : ℚ} (h : 0 ≤ q) : u64cast q = ⌊q⌋ := by
  unfold u64cast truncQ
  rw [if_pos h]
  have h0 : (0 : ℤ) ≤ ⌊q⌋ := Int.le_floor.mpr (by exact_mod_cast h)
  omega

/-- The `f64 as u64` cast of a natural number is the identity. -/
theorem u64cast_natCast (n : ℕ) : u64cast ((n : ℕ) : ℚ) = (n : ℤ) := by
  rw [u64cast_eq_floor (by positivity)]
  exact_mod_cast Int.floor_natCast n

/-- With scale factor 1, `Coordinate::new` is the identity on nonnegative
inputs. -/
theorem coordinate_new_eval_scale_one (scr : Screen) (q : ℚ) (hs : scr.scale = 1)
    (h : 0 ≤ q) : Coordinate.new scr q = ⟨q⟩ := by
  unfold Coordinate.new
  rcases lt_or_eq_of_le h with h' | h'
  · rw [if_pos h', hs, div_one]
  · rw [← h']
    norm_num

/-- Evaluation of `ScreenRect::new` at scale factor 1 on a box that fits
the screen: the origin passes through unchanged and the requested size
survives the truncation. -/
theorem screenRect_new_eval_scale_one (scr : Screen) (qx qy qw qh : ℚ) (nw nh : ℤ)
    (hs : scr.scale = 1) (h1 : 0 ≤ qx) (h2 : 0 ≤ qy)
    (huw : u64cast qw = nw) (huh : u64cast qh = nh)
    (h4 : ⌊qx⌋ + nw ≤ scr.width) (h6 : ⌊qy⌋ + nh ≤ scr.height) :
    ScreenRect.new scr qx qy qw qh = ⟨(qx, qy), ((nw : ℚ), (nh : ℚ))⟩ := by
  have hcx := coordinate_new_eval_scale_one scr qx hs h1
  have hcy := coordinate_new_eval_scale_one scr qy hs h2
  simp only [ScreenRect.new, hcx, hcy, huw, huh, u64cast_eq_floor h1, u64cast_eq_floor h2]
  have hw' : min nw (scr.width - ⌊qx⌋) = nw := by omega
  have hh' : min nh (scr.height - ⌊qy⌋) = nh := by omega
  rw [hw', hh']

/-- C8 counterexample: on a 1920x1080 screen with scale factor 1, an Input
verb on a template target resolved at (100,100) with a 20x20 template gets a
default check zone whose origin is (90,90) — the box is centred on the
resolved point, not anchored at it as the claim states. -/
theorem input_template_zone_not_anchored_at_point :
    (Input.new_check_zone ⟨1920, 1080, 1⟩ ⟨(100, 100)⟩ (.TemplateTarget 20 20) none).origin =
        ((90 : ℚ), (90 : ℚ)) ∧
      ((90 : ℚ), (90 : ℚ)) ≠ ((100 : ℚ), (100 : ℚ)) := by
  constructor
  · have heval := screenRect_new_eval_scale_one ⟨1920, 1080, 1⟩
      ((100 : ℚ) - ((20 : ℕ) : ℚ) / 2) ((100 : ℚ) - ((20 : ℕ) : ℚ) / 2)
      ((20 : ℕ) : ℚ) ((20 : ℕ) : ℚ) 20 20 rfl (by norm_num) (by norm_num)
      (u64cast_natCast 20) (u64cast_natCast 20)
      (by norm_num) (by norm_num)
    simp only [Input.new_check_zone, Option.getD, heval]
    norm_num
  · norm_num [Prod.ext_iff]

/-- C8 (amended): for a verb built without an explicit check zone, on a
scale-1 screen, with the resolved point far enough from the screen edges
that no truncation occurs: an absolute target gets a 150x150 box centred on
the point (top-left at the point minus (75,75)) in both Click and Input; a
template target gets a box sized exactly to the template's dimensions, but
the two verbs anchor it differently — Click puts the box's top-left at the
resolved point, while Input centres the box on the resolved point (top-left
at the point minus half the template size). -/
theorem default_check_zone_formulas (scr : Screen) (px py : ℤ) (tw th : ℕ)
    (hs : scr.scale = 1) (hW31 : scr.width < 2 ^ 31) (hH31 : scr.height < 2 ^ 31)
    (hpx150 : 150 ≤ px) (hpxW : px + 150 ≤ scr.width)
    (hpy150 : 150 ≤ py) (hpyH : py + 150 ≤ scr.height)
    (hwpx : (tw : ℤ) ≤ px) (hpxwW : px + (tw : ℤ) ≤ scr.width)
    (hhpy : (th : ℤ) ≤ py) (hpyhH : py + (th : ℤ) ≤ scr.height) :
    Click.new_check_zone scr ⟨((px : ℚ), (py : ℚ))⟩ .AbsoluteTarget none =
        ⟨((px : ℚ) - 75, (py : ℚ) - 75), (150, 150)⟩ ∧
    Input.new_check_zone scr ⟨((px : ℚ), (py : ℚ))⟩ .AbsoluteTarget none =
        ⟨((px : ℚ) - 75, (py : ℚ) - 75), (150, 150)⟩ ∧
    Click.new_check_zone scr ⟨((px : ℚ), (py : ℚ))⟩ (.TemplateTarget tw th) none =
        ⟨((px : ℚ), (py : ℚ)), ((tw : ℚ), (th : ℚ))⟩ ∧
    Input.new_check_zone scr ⟨((px : ℚ), (py : ℚ))⟩ (.TemplateTarget tw th) none =
        ⟨((px : ℚ) - (tw : ℚ) / 2, (py : ℚ) - (th : ℚ) / 2), ((tw : ℚ), (th : ℚ))⟩ := by
  have hsx : satI32 ((px : ℤ) : ℚ) = px := satI32_intCast (by omega) (by omega)
  have hsy : satI32 ((py : ℤ) : ℚ) = py := satI32_intCast (by omega) (by omega)
  have habs : ScreenCoordinates.generate_rect scr ⟨((px : ℚ), (py : ℚ))⟩ 150 150 .Center =
      ScreenRect.new scr ((px - 75 : ℤ) : ℚ) ((py - 75 : ℤ) : ℚ)
        ((((150 : ℕ) : ℤ)) : ℚ) ((((150 : ℕ) : ℤ)) : ℚ) := by
    simp only [ScreenCoordinates.generate_rect,
      i32cast_of_lt (by norm_num : ((150 : ℕ) : ℤ) < 2 ^ 31)]
    rw [hsx, hsy]
    rw [show min ((150 : ℕ) : ℤ) (min px (scr.width - px)) = ((150 : ℕ) : ℤ) by
      push_cast; omega]
    rw [show min ((150 : ℕ) : ℤ) (min py (scr.height - py)) = ((150 : ℕ) : ℤ) by
      push_cast; omega]
    rw [show Int.tdiv ((150 : ℕ) : ℤ) 2 = 75 by decide]
  have habseval : ScreenRect.new scr ((px - 75 : ℤ) : ℚ) ((py - 75 : ℤ) : ℚ)
      ((((150 : ℕ) : ℤ)) : ℚ) ((((150 : ℕ) : ℤ)) : ℚ) =
      ⟨((px : ℚ) - 75, (py : ℚ) - 75), (150, 150)⟩ := by
    have heval := screenRect_new_eval_scale_one scr ((px - 75 : ℤ) : ℚ) ((py - 75 : ℤ) : ℚ)
      ((((150 : ℕ) : ℤ)) : ℚ) ((((150 : ℕ) : ℤ)) : ℚ) 150 150 hs
      (by have hc : (150 : ℚ) ≤ (px : ℚ) := by exact_mod_cast hpx150
          push_cast
          linarith)
      (by have hc : (150 : ℚ) ≤ (py : ℚ) := by exact_mod_cast hpy150
          push_cast
          linarith)
      (by rw [show ((((150 : ℕ) : ℤ)) : ℚ) = (((150 : ℤ)) : ℚ) by push_cast; ring]
          exact u64cast_intCast_of_nonneg (by norm_num))
      (by rw [show ((((150 : ℕ) : ℤ)) : ℚ) = (((150 : ℤ)) : ℚ) by push_cast; ring]
          exact u64cast_intCast_of_nonneg (by norm_num))
      (by rw [Int.floor_intCast]; omega)
      (by rw [Int.floor_intCast]; omega)
    rw [heval]
    push_cast
    norm_num
  refine ⟨?_, ?_, ?_, ?_⟩
  · simp only [Click.new_check_zone, Option.getD]
    rw [habs, habseval]
  · simp only [Input.new_check_zone, Option.getD]
    rw [habs, habseval]
  · simp only [Click.new_check_zone, Option.getD]
    have heval := screenRect_new_eval_scale_one scr ((px : ℚ)) ((py : ℚ))
      ((tw : ℕ) : ℚ) ((th : ℕ) : ℚ) (tw : ℤ) (th : ℤ) hs
      (by exact_mod_cast le_trans (by norm_num : (0 : ℤ) ≤ 150) hpx150)
      (by exact_mod_cast le_trans (by norm_num : (0 : ℤ) ≤ 150) hpy150)
      (u64cast_natCast tw) (u64cast_natCast th)
      (by rw [Int.floor_intCast]; omega)
      (by rw [Int.floor_intCast]; omega)
    rw [heval]
    push_cast
    norm_num
  · simp only [Input.new_check_zone, Option.getD]
    have hq0x : (0 : ℚ) ≤ (px : ℚ) - ((tw : ℕ) : ℚ) / 2 := by
      have htw : ((tw : ℕ) : ℚ) ≤ ((px : ℤ) : ℚ) := by exact_mod_cast hwpx
      have hhalf : ((tw : ℕ) : ℚ) / 2 ≤ ((tw : ℕ) : ℚ) := half_le_self (by positivity)
      linarith
    have hq0y : (0 : ℚ) ≤ (py : ℚ) - ((th : ℕ) : ℚ) / 2 := by
      have hth : ((th : ℕ) : ℚ) ≤ ((py : ℤ) : ℚ) := by exact_mod_cast hhpy
      have hhalf : ((th : ℕ) : ℚ) / 2 ≤ ((th : ℕ) : ℚ) := half_le_self (by positivity)
      linarith
    have hfx : ⌊(px : ℚ) - ((tw : ℕ) : ℚ) / 2⌋ ≤ px := by
      have hle : ((px : ℚ) - ((tw : ℕ) : ℚ) / 2) ≤ ((px : ℤ) : ℚ) := by
        have : (0 : ℚ) ≤ ((tw : ℕ) : ℚ) / 2 := by positivity
        linarith
      simpa using Int.floor_mono hle
    have hfy : ⌊(py : ℚ) - ((th : ℕ) : ℚ) / 2⌋ ≤ py := by
      have hle : ((py : ℚ) - ((th : ℕ) : ℚ) / 2) ≤ ((py : ℤ) : ℚ) := by
        have : (0 : ℚ) ≤ ((th : ℕ) : ℚ) / 2 := by positivity
        linarith
      simpa using Int.floor_mono hle
    have heval := screenRect_new_eval_scale_one scr ((px : ℚ) - ((tw : ℕ) : ℚ) / 2)
      ((py : ℚ) - ((th : ℕ) : ℚ) / 2) ((tw : ℕ) : ℚ) ((th : ℕ) : ℚ) (tw : ℤ) (th : ℤ) hs
      hq0x hq0y (u64cast_natCast tw) (u64cast_natCast th)
      (by omega) (by omega)
    rw [heval]
    push_cast
    norm_num

/-- Witness for C8 (amended): the four default check zones at the point
(500, 500) with a 20x20 template on a 1920x1080 scale-1 screen. -/
theorem default_check_zone_formulas_witness :
    Click.new_check_zone ⟨1920, 1080, 1⟩ ⟨(((500 : ℤ) : ℚ), ((500 : ℤ) : ℚ))⟩
        .AbsoluteTarget none =
      ⟨(((500 : ℤ) : ℚ) - 75, ((500 : ℤ) : ℚ) - 75), (150, 150)⟩ ∧
    Input.new_check_zone ⟨1920, 1080, 1⟩ ⟨(((500 : ℤ) : ℚ), ((500 : ℤ) : ℚ))⟩
        .AbsoluteTarget none =
      ⟨(((500 : ℤ) : ℚ) - 75, ((500 : ℤ) : ℚ) - 75), (150, 150)⟩ ∧
    Click.new_check_zone ⟨1920, 1080, 1⟩ ⟨(((500 : ℤ) : ℚ), ((500 : ℤ) : ℚ))⟩
        (.TemplateTarget 20 20) none =
      ⟨(((500 : ℤ) : ℚ), ((500 : ℤ) : ℚ)), (((20 : ℕ) : ℚ), ((20 : ℕ) : ℚ))⟩ ∧
    Input.new_check_zone ⟨1920, 1080, 1⟩ ⟨(((500 : ℤ) : ℚ), ((500 : ℤ) : ℚ))⟩
        (.TemplateTarget 20 20) none =
      ⟨(((500 : ℤ) : ℚ) - ((20 : ℕ) : ℚ) / 2, ((500 : ℤ) : ℚ) - ((20 : ℕ) : ℚ) / 2),
        (((20 : ℕ) : ℚ), ((20 : ℕ) : ℚ))⟩ :=
  default_check_zone_formulas ⟨1920, 1080, 1⟩ 500 500 20 20 rfl (by norm_num) (by norm_num)
    (by norm_num) (by norm_num) (by norm_num) (by norm_num)
    (by norm_num) (by norm_num) (by norm_num) (by norm_num)

/-- C5 counterexample: on a 1920x1080 scale-1 screen, requesting a width of
`2^31` (a "size beyond the screen extent" the claim quantifies over) with
the TopLeft anchor at the in-bounds point (100, 100) does not truncate to
the claimed `min(2^31, 1920 - 100) = 1820`: the `u64 as i32` cast wraps the
request to `-2^31`, and the rectangle comes out with width 0. (On this
anchor no intermediate `i32` subtraction occurs, so the evaluation is exact
for debug and release builds alike; the corner anchors additionally
overflow `x - rw` in `i32`, a panic in debug builds, so "construction never
fails" also breaks there.) -/
theorem generate_rect_wrap_counterexample :
    ((min ((2 ^ 31 : ℕ) : ℤ)
        (specAnchorDistX ⟨1920, 1080, 1⟩ (satI32 (100 : ℚ)) .TopLeft) : ℤ) : ℚ) = 1820 ∧
    (ScreenCoordinates.generate_rect ⟨1920, 1080, 1⟩ ⟨(100, 100)⟩ (2 ^ 31) 50
        .TopLeft).size.1 = 0 ∧
    (0 : ℚ) ≠ 1820 := by
  have h1 : satI32 (100 : ℚ) = 100 := by
    norm_num [satI32, truncQ]
  refine ⟨?_, ?_, by norm_num⟩
  · rw [h1]
    simp only [specAnchorDistX]
    rw [min_eq_right (by norm_num : (1920 - 100 : ℤ) ≤ ((2 ^ 31 : ℕ) : ℤ))]
    norm_num
  · have h2 : i32cast (2 ^ 31) = -(2 ^ 31) := by
      unfold i32cast
      norm_num
    have h3 : i32cast 50 = 50 := i32cast_of_lt (by norm_num)
    have heval := screenRect_new_eval_scale_one ⟨1920, 1080, 1⟩
      ((100 : ℤ) : ℚ) ((100 : ℤ) : ℚ) ((-(2 ^ 31) : ℤ) : ℚ) ((50 : ℤ) : ℚ) 0 50 rfl
      (by norm_num) (by norm_num)
      (by unfold u64cast
          rw [truncQ_intCast]
          norm_num)
      (u64cast_intCast_of_nonneg (by norm_num))
      (by rw [Int.floor_intCast]; norm_num)
      (by rw [Int.floor_intCast]; norm_num)
    simp only [ScreenCoordinates.generate_rect, h1, h2, h3]
    rw [show min (-(2 ^ 31) : ℤ) ((1920 : ℤ) - 100) = -(2 ^ 31) by norm_num]
    rw [show min (50 : ℤ) ((1080 : ℤ) - 100) = 50 by norm_num]
    rw [heval]
    norm_num
